import Mathlib

/-!
Verification of the property marshalling layer of
`src/clients/common/nm-meta-setting-desc.c` (NetworkManager client common code).

The C file is shallowly embedded: each parser or accessor that the claims
touch is translated into an executable Lean function over explicit state.
Helpers from glib / libnm / nm-shared-utils that the file calls but that are
not part of `src/` (string splitting, integer parsing, address validation,
the redaction token, value-set validation) are modelled; each such model
carries a doc comment saying so.
-/

namespace NMMetaSettingDesc

/-- Characters accepted by `g_ascii_isspace` (space, tab, newline, carriage
return, vertical tab, form feed). -/
def isAsciiSpace (c : Char) : Bool :=
  c == ' ' || c == '\t' || c == '\n' || c == '\r' || c == Char.ofNat 11 || c == Char.ofNat 12

/-- `g_strstrip` on character data: drop ASCII whitespace from both ends. -/
def stripChars (l : List Char) : List Char :=
  ((l.dropWhile isAsciiSpace).reverse.dropWhile isAsciiSpace).reverse

/-- `g_strstrip` on strings. -/
def gStrstrip (s : String) : String :=
  String.mk (stripChars s.data)

/-- Core splitter: cut the character list at every delimiter occurrence,
keeping empty fields (the behavior of `g_strsplit_set`). -/
def splitAnyCore (delims : List Char) : List Char → List Char → List (List Char)
  | [], acc => [acc.reverse]
  | c :: cs, acc =>
    if delims.contains c then acc.reverse :: splitAnyCore delims cs []
    else splitAnyCore delims cs (c :: acc)

/-- Modelled from the spec: `g_strsplit_set` (glib, outside src/) — split on any
delimiter character, keeping empty fields; an empty string gives no fields. -/
def gStrsplitSet (delims : List Char) (s : String) : List String :=
  if s.data.isEmpty then []
  else (splitAnyCore delims s.data []).map String.mk

/-- Modelled from the spec: `nm_utils_strsplit_set` (nm-shared-utils, outside
src/) — split on any delimiter character, dropping empty fields.  The C
function returns NULL when no field remains; that case is the empty list. -/
def nmStrsplitSet (delims : List Char) (s : String) : List String :=
  (splitAnyCore delims s.data []).filterMap
    (fun l => if l.isEmpty then none else some (String.mk l))

/-- Decimal digit accumulation; `none` as soon as a non-digit appears. -/
def digitsVal : List Char → Nat → Option Nat
  | [], acc => some acc
  | c :: cs, acc =>
    if c.isDigit then digitsVal cs (acc * 10 + (c.toNat - 48)) else none

/-- Base-10 integer syntax of `g_ascii_strtoll`: optional sign followed by at
least one digit, nothing else. -/
def parseIntCore : List Char → Option Int
  | [] => none
  | '+' :: rest =>
    match rest with
    | [] => none
    | _ => (digitsVal rest 0).map Int.ofNat
  | '-' :: rest =>
    match rest with
    | [] => none
    | _ => (digitsVal rest 0).map (fun n => -(n : Int))
  | l => (digitsVal l 0).map Int.ofNat

/-- Modelled from the spec: `_nm_utils_ascii_str_to_int64` with base 10
(nm-shared-utils, outside src/) — surrounding ASCII whitespace is ignored,
a malformed or out-of-`[mn,mx]` number yields `fallback`. -/
def asciiStrToInt64 (s : String) (mn mx fallback : Int) : Int :=
  match parseIntCore (stripChars s.data) with
  | none => fallback
  | some v => if v < mn || v > mx then fallback else v

/-- Split a character list at the first occurrence of `d` (`strchr`). -/
def splitFirstChar (d : Char) : List Char → Option (List Char × List Char)
  | [] => none
  | c :: cs =>
    if c == d then some ([], cs)
    else (splitFirstChar d cs).map (fun p => (c :: p.1, p.2))

/-- One dotted-quad field: nonempty, at most 3 digits, no leading zero
(except "0" itself), value at most 255. -/
def ipv4OctetOk (l : List Char) : Bool :=
  !l.isEmpty && l.length ≤ 3 && l.all Char.isDigit
    && (l.head? != some '0' || l == ['0'])
    && (digitsVal l 0).getD 256 ≤ 255

/-- Modelled from the spec: IPv4 address validity as checked by
`nm_utils_ipaddr_valid (AF_INET, ...)` / `inet_pton` (libnm / libc, outside
src/) — exactly four dot-separated decimal octets. -/
def ipv4AddrValid (s : String) : Bool :=
  match splitAnyCore ['.'] s.data [] with
  | [a, b, c, d] => ipv4OctetOk a && ipv4OctetOk b && ipv4OctetOk c && ipv4OctetOk d
  | _ => false

/-- A validator accepting every string; used to instantiate the parametric
external address validator in witnesses. -/
def allValid : String → Bool :=
  fun _ => true

deriving instance DecidableEq for Except

/-! ## IP address parsing (`_parse_ip_address`) -/

/-- The address family handed to `_parse_ip_address` (`AF_INET` / `AF_INET6`). -/
inductive Family
  | v4
  | v6

deriving DecidableEq, Repr

/-- `MAX_PREFIX = (family == AF_INET) ? 32 : 128`. -/
def maxPlen : Family → Nat
  | .v4 => 32
  | .v6 => 128

/-- The value object built by `nm_ip_address_new`: address text plus its
prefix length. -/
structure NMIPAddress where
  addr : String
  plen : Nat

deriving DecidableEq, Repr

/-- The two distinct error shapes of `_parse_ip_address`:
"invalid prefix '%s'; <1-%d> allowed" versus "invalid IP address: %s". -/
inductive IpAddrErr
  | invalidPlen (txt : String) (maxAllowed : Nat)
  | invalidAddress (txt : String)

deriving DecidableEq, Repr

/-- `_parse_ip_address` (nm-meta-setting-desc.c:78-112).  The text is
stripped, an optional "/plen" suffix is cut at the first slash and parsed
with bounds `[1, MAX_PREFIX]` (default `MAX_PREFIX` when absent), and the
address part is checked by the external `nm_ip_address_new` validation,
passed in as `addrValid`. -/
def _parse_ip_address (family : Family) (addrValid : String → Bool)
    (address : String) : Except IpAddrErr NMIPAddress :=
  let ipData := stripChars address.data
  match splitFirstChar '/' ipData with
  | none =>
    if addrValid (String.mk ipData) then .ok ⟨String.mk ipData, maxPlen family⟩
    else .error (.invalidAddress (String.mk ipData))
  | some (ip, plenTxt) =>
    let p := asciiStrToInt64 (String.mk plenTxt) 1 (maxPlen family) (-1)
    if p == -1 then .error (.invalidPlen (String.mk plenTxt) (maxPlen family))
    else if addrValid (String.mk ip) then .ok ⟨String.mk ip, p.toNat⟩
    else .error (.invalidAddress (String.mk ip))

/-- The value object built by `nm_ip_route_new` plus the collected route
attributes (`attrs` keeps the accepted `key=value` tokens in input order). -/
structure NMIPRoute where
  dest : String
  plen : Nat
  next_hop : Option String
  metric : Int
  attrs : List String

deriving DecidableEq, Repr

/-- The distinct error cases of `_parse_ip_route`. -/
inductive RouteErr
  | badFormat (tok : String)
  | invalidPlen (txt : String) (maxAllowed : Nat)
  | nextHopMustBeFirst (tok : String)
  | metricMustBeBeforeAttrs (tok : String)
  | invalidAttr (tok : String)
  | invalidRoute (dest : String)

deriving DecidableEq, Repr

/-- The mutable locals of the token loop of `_parse_ip_route`:
`next_hop`, `metric` (sentinel −1) and the attribute table. -/
structure RouteScan where
  next_hop : Option String
  metric : Int
  attrs : List String

deriving DecidableEq, Repr

/-- Loop entry state: `next_hop = NULL`, `metric = -1`, `attrs = NULL`. -/
def routeScan0 : RouteScan :=
  ⟨none, -1, []⟩

/-- One iteration of the token loop of `_parse_ip_route`
(nm-meta-setting-desc.c:167-221).  `addrValid` stands for the external
`nm_utils_ipaddr_valid`, `attrValid` for
`nm_utils_parse_variant_attributes` + `nm_ip_route_attribute_validate`. -/
def routeTokenStep (addrValid attrValid : String → Bool) (st : RouteScan)
    (tok : String) : Except RouteErr RouteScan :=
  if addrValid tok then
    if st.metric != -1 || !st.attrs.isEmpty then .error (.nextHopMustBeFirst tok)
    else .ok { st with next_hop := some tok }
  else if asciiStrToInt64 tok 0 4294967295 (-1) != -1 then
    if !st.attrs.isEmpty then .error (.metricMustBeBeforeAttrs tok)
    else .ok { st with metric := asciiStrToInt64 tok 0 4294967295 (-1) }
  else if tok.data.contains '=' then
    if attrValid tok then .ok { st with attrs := st.attrs ++ [tok] }
    else .error (.invalidAttr tok)
  else .error (.badFormat tok)

/-- `_parse_ip_route` (nm-meta-setting-desc.c:114-242): strip, split on
space/tab, cut an optional `/plen` off the first token (bounds
`[1, MAX_PREFIX]`, default `MAX_PREFIX`), classify the remaining tokens in
order, then let `nm_ip_route_new` (modelled by `addrValid dest`) validate the
destination. -/
def _parse_ip_route (family : Family) (addrValid attrValid : String → Bool)
    (str : String) : Except RouteErr NMIPRoute :=
  match nmStrsplitSet [' ', '\t'] (gStrstrip str) with
  | [] => .error (.badFormat str)
  | destTok :: rest =>
    let destPlen :=
      match splitFirstChar '/' destTok.data with
      | none => (destTok.data, none)
      | some (d, p) => (d, some p)
    let plenParsed : Except RouteErr Nat :=
      match destPlen.2 with
      | none => .ok (maxPlen family)
      | some p =>
        let pr := asciiStrToInt64 (String.mk p) 1 (maxPlen family) (-1)
        if pr == -1 then .error (.invalidPlen (String.mk p) (maxPlen family))
        else .ok pr.toNat
    match plenParsed with
    | .error e => .error e
    | .ok plen =>
      match List.foldlM (routeTokenStep addrValid attrValid) routeScan0 rest with
      | .error e => .error e
      | .ok st =>
        if addrValid (String.mk destPlen.1) then
          .ok ⟨String.mk destPlen.1, plen, st.next_hop, st.metric, st.attrs⟩
        else .error (.invalidRoute (String.mk destPlen.1))

/-- Modelled from the spec: `nmc_string_is_valid` (clients/common client
utils, outside src/) — validate an item against a fixed value set, returning
the matched entry, or nothing (with an error set) when the item is not in the
set. -/
def nmc_string_is_valid (allowed : List String) (input : String) : Option String :=
  if allowed.contains input then some input else none

/-- Outcome of a list-setter call.  The C functions mutate the setting object
in place, so the resulting item list is part of the outcome even when the
call reports failure. -/
structure ListSetResult where
  ok : Bool
  items : List String
  err : Option String

deriving DecidableEq, Repr

/-- The item loop of `_set_fcn_multilist` (nm-meta-setting-desc.c:1649-1664):
each token is validated against `values_static` (when present) and, on
success, immediately appended through the property's `add_fcn`. -/
def _set_fcn_multilist_items (values_static : Option (List String)) :
    List String → List String → ListSetResult
  | st, [] => ⟨true, st, none⟩
  | st, item :: rest =>
    match values_static with
    | some allowed =>
      match nmc_string_is_valid allowed item with
      | some matched => _set_fcn_multilist_items values_static (st ++ [matched]) rest
      | none => ⟨false, st, some item⟩
    | none => _set_fcn_multilist_items values_static (st ++ [item]) rest

/-- `_set_fcn_multilist` (nm-meta-setting-desc.c:1640-1666): NULL resets the
property to its compile-time default (the empty list, per
`_gobject_property_reset_default` on a list-valued property); otherwise the
value is split on space/tab/comma and the items applied one by one. -/
def _set_fcn_multilist (values_static : Option (List String)) (st : List String)
    (value : Option String) : ListSetResult :=
  match value with
  | none => ⟨true, [], none⟩
  | some v => _set_fcn_multilist_items values_static st (nmStrsplitSet [' ', '\t', ','] v)

/-- `_gobject_property_is_default` for a list-valued (strv-like) property
(nm-meta-setting-desc.c:677-679): NULL or empty counts as default. -/
def multilist_is_default (st : List String) : Bool :=
  st.isEmpty

/-- Outcome of `_set_fcn_ip4_config_addresses`. -/
structure AddrSetResult where
  ok : Bool
  items : List NMIPAddress
  err : Option IpAddrErr

deriving DecidableEq, Repr

/-- The item loop of `_set_fcn_ip4_config_addresses`
(nm-meta-setting-desc.c:3321-3329): each comma-separated token is parsed and,
on success, immediately added through `nm_setting_ip_config_add_address`. -/
def _set_fcn_ip4_config_addresses_items :
    List NMIPAddress → List String → AddrSetResult
  | st, [] => ⟨true, st, none⟩
  | st, tok :: rest =>
    match _parse_ip_address .v4 ipv4AddrValid tok with
    | .ok a => _set_fcn_ip4_config_addresses_items (st ++ [a]) rest
    | .error e => ⟨false, st, some e⟩

/-- `_set_fcn_ip4_config_addresses` (nm-meta-setting-desc.c:3312-3331). -/
def _set_fcn_ip4_config_addresses (st : List NMIPAddress) (value : Option String) :
    AddrSetResult :=
  match value with
  | none => ⟨true, [], none⟩
  | some v => _set_fcn_ip4_config_addresses_items st (nmStrsplitSet [','] v)

/-- `_set_fcn_multilist` as claim C1 words it (all-or-nothing): an invalid
item anywhere in the token sequence applies nothing and returns the first
error in left-to-right order.  Stated for comparison with the embedded
source function. -/
def set_fcn_multilist_as_claimed (values_static : Option (List String))
    (st : List String) (value : Option String) : ListSetResult :=
  match value with
  | none => ⟨true, [], none⟩
  | some v =>
    let toks := nmStrsplitSet [' ', '\t', ','] v
    match values_static with
    | none => ⟨true, st ++ toks, none⟩
    | some allowed =>
      match toks.find? (fun t => (nmc_string_is_valid allowed t).isNone) with
      | some bad => ⟨false, st, some bad⟩
      | none => ⟨true, st ++ toks, none⟩

/-- Outcome of a list remover call. -/
structure ListRemoveResult where
  ok : Bool
  items : List String
  err : Option String

deriving DecidableEq, Repr

/-- `_remove_fcn_multilist` (nm-meta-setting-desc.c:1668-1696): text parsing
as a decimal integer in `[0, G_MAXINT64]` is treated as an index — in-range
removes that element, out-of-range is a successful no-op; any other text is
stripped, optionally validated against `values_static`, and removed by value
(the property's external `remove_by_value_fcn`, modelled as erasing the first
equal element; zero matches succeed). -/
def _remove_fcn_multilist (values_static : Option (List String)) (st : List String)
    (value : String) : ListRemoveResult :=
  let idx := asciiStrToInt64 value 0 9223372036854775807 (-1)
  if idx != -1 then
    if idx < (st.length : Int) then ⟨true, st.eraseIdx idx.toNat, none⟩
    else ⟨true, st, none⟩
  else
    let v := gStrstrip value
    match values_static with
    | some allowed =>
      match nmc_string_is_valid allowed v with
      | some matched => ⟨true, st.erase matched, none⟩
      | none => ⟨false, st, some v⟩
    | none => ⟨true, st.erase v, none⟩

/-- The remove semantics as claim C4 words them: the index path applies only
to integers strictly below the element count; any other text — including an
integer that is not a valid index — goes through strip / validate /
remove-by-value.  Stated for comparison with the embedded source function. -/
def remove_fcn_multilist_as_claimed (values_static : Option (List String))
    (st : List String) (value : String) : ListRemoveResult :=
  let idx := asciiStrToInt64 value 0 9223372036854775807 (-1)
  if idx != -1 && idx < (st.length : Int) then ⟨true, st.eraseIdx idx.toNat, none⟩
  else
    let v := gStrstrip value
    match values_static with
    | some allowed =>
      match nmc_string_is_valid allowed v with
      | some matched => ⟨true, st.erase matched, none⟩
      | none => ⟨false, st, some v⟩
    | none => ⟨true, st.erase v, none⟩

/-- The distinct error cases of the DCB array setter. -/
inductive DcbErr
  | notEightNumbers
  | elemOutOfRange (tok : String)
  | sumNot100

deriving DecidableEq, Repr

/-- The per-element check of `dcb_parse_uint_array`
(nm-meta-setting-desc.c:2885-2906): strip the field, parse base-10 with
bounds `[0, other ?: max]`, and reject a value above `max` unless it equals
the permitted `other` sentinel. -/
def dcbParseElem (mx oth : Nat) (tok : String) : Except DcbErr Nat :=
  let s := gStrstrip tok
  let num := asciiStrToInt64 s 0 (if oth != 0 then (oth : Int) else (mx : Int)) (-1)
  if num == -1 || (oth != 0 && ((mx : Int) < num) && num != (oth : Int)) then
    .error (.elemOutOfRange s)
  else .ok num.toNat

/-- The element loop of `dcb_parse_uint_array`, first error wins. -/
def dcbParseElems (mx oth : Nat) : List String → Except DcbErr (List Nat)
  | [] => .ok []
  | t :: ts =>
    match dcbParseElem mx oth t with
    | .error e => .error e
    | .ok n =>
      match dcbParseElems mx oth ts with
      | .error e => .error e
      | .ok ns => .ok (n :: ns)

/-- `dcb_parse_uint_array` (nm-meta-setting-desc.c:2867-2909): exactly 8
comma-separated fields, each within `[0, max]` or equal to `other`. -/
def dcb_parse_uint_array (val : String) (mx oth : Nat) : Except DcbErr (List Nat) :=
  let items := gStrsplitSet [','] val
  if items.length ≠ 8 then .error .notEightNumbers
  else dcbParseElems mx oth items

/-- The percentage-sum loop of `_set_fcn_dcb`
(nm-meta-setting-desc.c:2942-2948): accumulate the slots, breaking as soon
as a slot or the partial sum exceeds 100; returns the final `sum` local. -/
def dcbPercentSum : List Nat → Nat → Nat
  | [], acc => acc
  | n :: rest, acc =>
    if n > 100 || acc + n > 100 then acc + n
    else dcbPercentSum rest (acc + n)

/-- `_set_fcn_dcb` (nm-meta-setting-desc.c:2925-2960): NULL resets the
property to its all-zero default; otherwise the 8-slot array is parsed, the
percentage sum is checked (for `is_percent` properties) after the
per-element validation, and only then is every slot stored. -/
def _set_fcn_dcb (mx oth : Nat) (is_percent : Bool) (_st : List Nat)
    (value : Option String) : Except DcbErr (List Nat) :=
  match value with
  | none => .ok (List.replicate 8 0)
  | some v =>
    match dcb_parse_uint_array v mx oth with
    | .error e => .error e
    | .ok nums =>
      if is_percent && dcbPercentSum nums 0 != 100 then .error .sumNot100
      else .ok nums

/-- `_set_fcn_gobject_string` (nm-meta-setting-desc.c:1036-1058): NULL resets
to the pspec default `dflt`; otherwise the value is validated against
`values_static` (when present; the per-property `validate_fcn` hook is not
modelled) and stored. -/
def _set_fcn_gobject_string (values_static : Option (List String))
    (dflt : Option String) (value : Option String) :
    Except String (Option String) :=
  match value with
  | none => .ok dflt
  | some v =>
    match values_static with
    | some allowed =>
      match nmc_string_is_valid allowed v with
      | some matched => .ok (some matched)
      | none => .error v
    | none => .ok (some v)

/-- `g_param_value_defaults` for a string property: the stored value equals
the pspec default. -/
def gobject_string_is_default (dflt cur : Option String) : Bool :=
  cur == dflt

/-- The fields of `NMSettingConnection` touched by
`_set_fcn_connection_type`: the persistent identifier and the type. -/
structure NMSettingConnection where
  uuid : Option String
  ctype : Option String

deriving DecidableEq, Repr

/-- `_set_fcn_connection_type` (nm-meta-setting-desc.c:2449-2478): with a
UUID already present the set is rejected outright — before the NULL/reset
check; otherwise NULL resets the type, and any other value is stored
together with a freshly generated UUID (`nm_utils_uuid_generate`, passed in
as `gen_uuid`). -/
def _set_fcn_connection_type (gen_uuid : String) (s : NMSettingConnection)
    (value : Option String) : Except String NMSettingConnection :=
  if s.uuid.isSome then .error "Can not change the connection type"
  else
    match value with
    | none => .ok { s with ctype := none }
    | some v => .ok { s with uuid := some gen_uuid, ctype := some v }

/-- `g_param_value_defaults` on connection.type (string pspec, default
NULL). -/
def connection_type_is_default (s : NMSettingConnection) : Bool :=
  s.ctype.isNone

/-- The two supported rendering modes (`NMMetaAccessorGetType`). -/
inductive GetType
  | parsable
  | pretty

deriving DecidableEq, Repr

/-- Modelled from the spec: `NM_META_TEXT_HIDDEN` (declared in the header,
outside src/) — the canonical fixed redaction token. -/
def NM_META_TEXT_HIDDEN : String :=
  "<hidden>"

/-- `_get_text_hidden` (nm-meta-setting-desc.c:587-593): the redaction
token; under Pretty mode it goes through the localization call, modelled as
the identity (the untranslated text). -/
def _get_text_hidden (_get_type : GetType) : String :=
  NM_META_TEXT_HIDDEN

/-- The slice of `NMMetaPropertyInfo` read by the get dispatch: the
`is_secret` flag and the property type's `get_fcn`, a function of the
setting state and rendering mode returning the text and the `is_default`
out-flag. -/
structure PropertyInfo (σ : Type) where
  is_secret : Bool
  get_fcn : σ → GetType → String × Bool

/-- `_meta_type_property_info_get_fcn` (nm-meta-setting-desc.c:8120-8160),
restricted to the two supported get types: a secret property without the
`SHOW_SECRETS` get-flag reports `is_default = TRUE` and returns the
redaction token before ever consulting the setting; otherwise the property
type's `get_fcn` runs. -/
def _meta_type_property_info_get_fcn {σ : Type} (info : PropertyInfo σ)
    (setting : σ) (get_type : GetType) (show_secrets : Bool) : String × Bool :=
  if info.is_secret && !show_secrets then (_get_text_hidden get_type, true)
  else info.get_fcn setting get_type

/-- A concrete secret property over an optional stored string whose
`get_fcn` would expose the stored value. -/
def secretDemoInfo : PropertyInfo (Option String) :=
  ⟨true, fun st _ => (st.getD "", st.isNone)⟩

/-- `_get_fcn_gobject_enum` (nm-meta-setting-desc.c:895-1031) restricted to
the default rendering policy (no `ENUM_GET` typ-flags, lines 943-953):
Pretty mode formats numeric plus localized text, Parsable mode numeric only;
`format_numeric_hex_unknown` is set in both branches, so a flags class (not
an enum class) takes the hex branch of the numeric rendering — and since
`G_GINT64_FORMAT` is a decimal conversion, that branch prints `"0x"`
followed by the decimal digits of the value.  `enumToStr` stands for the
external `_nm_utils_enum_to_str_full` (libnm-core, outside src/);
localization is the identity. -/
def _get_fcn_gobject_enum_default (isEnumClass : Bool) (enumToStr : Int → String)
    (get_type : GetType) (v : Int) : String :=
  let format_text := get_type == GetType.pretty
  let s_numeric := if !isEnumClass then "0x" ++ toString v else toString v
  if !format_text then s_numeric
  else
    let s := enumToStr v
    if s == s_numeric then s
    else s_numeric ++ " (" ++ s ++ ")"

/-- A textual rendering naming the zero flags value "none", as the flag
enumerations of libnm do. -/
def noneNick : Int → String :=
  fun _ => "none"

/-- The locals accumulated by the `key=value` loop of
`_parse_team_link_watcher`: watcher name, the four shared numeric locals
`val1`..`val4`, the two hosts and the three arp_ping flags. -/
structure WatcherAcc where
  name : Option String
  val1 : Int
  val2 : Int
  val3 : Int
  val4 : Int
  target_host : Option String
  source_host : Option String
  validate_active : Bool
  validate_inactive : Bool
  send_always : Bool

deriving DecidableEq, Repr

/-- Loop entry state (nm-meta-setting-desc.c:304-308):
`val1 = 0, val2 = 0, val3 = 3, val4 = -1`, no hosts, no flags. -/
def watcherAcc0 : WatcherAcc :=
  ⟨none, 0, 0, 3, -1, none, none, false, false, false⟩

/-- The per-token numeric re-checks of `_parse_team_link_watcher`
(nm-meta-setting-desc.c:371-380), run after every `key=value` token. -/
def teamWatcherPostCheck (tok : String) (a : WatcherAcc) : Except String WatcherAcc :=
  if a.val1 < 0 || a.val2 < 0 || a.val3 < 0 then
    .error (tok ++ ": value is not a valid number [0, MAXINT]")
  else if a.val4 < -1 then
    .error (tok ++ ": value is not a valid number [-1, 4094]")
  else .ok a

/-- The key dispatch of `_parse_team_link_watcher`
(nm-meta-setting-desc.c:340-369): the three arp_ping flag keys set their
flag exactly when the value is the literal string `"true"` and silently
accept any other value; an unknown key is an error. -/
def teamWatcherKeyValue (tok : String) (acc : WatcherAcc) (k v : String) :
    Except String WatcherAcc :=
  if k == "name" then teamWatcherPostCheck tok { acc with name := some v }
  else if k == "delay-up" || k == "init-wait" then
    teamWatcherPostCheck tok { acc with val1 := asciiStrToInt64 v 0 2147483647 (-1) }
  else if k == "delay-down" || k == "interval" then
    teamWatcherPostCheck tok { acc with val2 := asciiStrToInt64 v 0 2147483647 (-1) }
  else if k == "missed-max" then
    teamWatcherPostCheck tok { acc with val3 := asciiStrToInt64 v 0 2147483647 (-1) }
  else if k == "vlanid" then
    teamWatcherPostCheck tok { acc with val4 := asciiStrToInt64 v (-1) 4094 (-2) }
  else if k == "target-host" then teamWatcherPostCheck tok { acc with target_host := some v }
  else if k == "source-host" then teamWatcherPostCheck tok { acc with source_host := some v }
  else if k == "validate-active" then
    teamWatcherPostCheck tok
      (if v == "true" then { acc with validate_active := true } else acc)
  else if k == "validate-inactive" then
    teamWatcherPostCheck tok
      (if v == "true" then { acc with validate_inactive := true } else acc)
  else if k == "send-always" then
    teamWatcherPostCheck tok
      (if v == "true" then { acc with send_always := true } else acc)
  else .error (tok ++ ": unknown key")

/-- One iteration of the token loop of `_parse_team_link_watcher`
(nm-meta-setting-desc.c:320-381): the token is split on `'='` (empty fields
dropped, as `nm_utils_strsplit_set` does), must yield exactly a key and a
value, and is then dispatched on the key. -/
def teamWatcherPairStep (acc : WatcherAcc) (tok : String) :
    Except String WatcherAcc :=
  match nmStrsplitSet ['='] tok with
  | [] => .error (tok ++ ": properties should be specified as key=value")
  | [_] => .error (tok ++ ": missing key value")
  | [k, v] => teamWatcherKeyValue tok acc k v
  | _ => .error (tok ++ ": properties should be specified as key=value")

/-- The whole token loop of `_parse_team_link_watcher`.  The final
`nm_team_link_watcher_new_*` constructor calls are external to src/ and not
modelled; the loop result is the parsed watcher specification. -/
def _parse_team_link_watcher_tokens (toks : List String) : Except String WatcherAcc :=
  List.foldlM teamWatcherPairStep watcherAcc0 toks

/-! ## Theorems -/

theorem splitFirstChar_eq_none {d : Char} {l : List Char}
    (h : l.contains d = false) : splitFirstChar d l = none := by
  induction l with
  | nil => rfl
  | cons c cs ih =>
    simp only [List.contains_cons, Bool.or_eq_false_iff] at h
    simp only [splitFirstChar]
    rw [if_neg, ih h.2]
    · rfl
    · simp only [beq_iff_eq]
      intro hc
      subst hc
      simp at h

theorem splitFirstChar_append {d : Char} {l r : List Char}
    (h : l.contains d = false) :
    splitFirstChar d (l ++ d :: r) = some (l, r) := by
  induction l with
  | nil => simp [splitFirstChar]
  | cons c cs ih =>
    simp only [List.contains_cons, Bool.or_eq_false_iff] at h
    simp only [List.cons_append, splitFirstChar, List.append_eq]
    rw [if_neg, ih h.2]
    · rfl
    · simp only [beq_iff_eq]
      intro hc
      subst hc
      simp at h

theorem string_mk_data (l : List Char) : (String.mk l).data = l :=
  rfl

theorem string_data_append (a b : String) : (a ++ b).data = a.data ++ b.data :=
  rfl

theorem ip_parse_no_slash (family : Family) (valid : String → Bool) (a : String)
    (h : (stripChars a.data).contains '/' = false)
    (hv : valid (String.mk (stripChars a.data)) = true) :
    _parse_ip_address family valid a = .ok ⟨String.mk (stripChars a.data), maxPlen family⟩ := by
  unfold _parse_ip_address
  simp only [splitFirstChar_eq_none h, hv]
  rfl

theorem ip_parse_with_slash (family : Family) (valid : String → Bool)
    (ip plenTxt : List Char) (v : Int)
    (hip : ip.contains '/' = false)
    (hs : stripChars (ip ++ '/' :: plenTxt) = ip ++ '/' :: plenTxt)
    (hp : parseIntCore (stripChars plenTxt) = some v) :
    (1 ≤ v ∧ v ≤ (maxPlen family : Int) →
       valid (String.mk ip) = true →
       _parse_ip_address family valid (String.mk (ip ++ '/' :: plenTxt)) =
         .ok ⟨String.mk ip, v.toNat⟩)
    ∧ (¬(1 ≤ v ∧ v ≤ (maxPlen family : Int)) →
       _parse_ip_address family valid (String.mk (ip ++ '/' :: plenTxt)) =
         .error (.invalidPlen (String.mk plenTxt) (maxPlen family))) := by
  constructor
  · intro hrange hv
    have hval : asciiStrToInt64 (String.mk plenTxt) 1 (maxPlen family) (-1) = v := by
      unfold asciiStrToInt64
      simp only [string_mk_data, hp]
      rw [if_neg]
      simp only [Bool.or_eq_true, decide_eq_true_eq]
      omega
    unfold _parse_ip_address
    simp only [string_mk_data, hs, splitFirstChar_append hip, hval, hv]
    rw [if_neg]
    · rfl
    · simp only [beq_iff_eq]
      omega
  · intro hrange
    have hval : asciiStrToInt64 (String.mk plenTxt) 1 (maxPlen family) (-1) = -1 := by
      unfold asciiStrToInt64
      simp only [string_mk_data, hp]
      rw [if_pos]
      simp only [Bool.or_eq_true, decide_eq_true_eq]
      omega
    unfold _parse_ip_address
    simp only [string_mk_data, hs, splitFirstChar_append hip, hval]
    rfl

/-- Claim C9: the IP-address parser accepts `ip[/plen]`; a missing prefix
defaults to the family maximum (32 for IPv4 — `"192.168.1.5"` gives 32 — and
128 for IPv6 — `"2001:db8::1"` gives 128; `"10.0.0.0/24"` gives 24); an
explicit prefix is accepted iff it lies in `[1, max]`; an invalid address and
an invalid prefix produce distinct, specific errors. -/
theorem C9_ip_address_parsing :
    (∀ (family : Family) (valid : String → Bool) (a : String),
       (stripChars a.data).contains '/' = false →
       valid (String.mk (stripChars a.data)) = true →
       _parse_ip_address family valid a =
         .ok ⟨String.mk (stripChars a.data), maxPlen family⟩)
    ∧ _parse_ip_address .v4 ipv4AddrValid "192.168.1.5" = .ok ⟨"192.168.1.5", 32⟩
    ∧ (∀ valid : String → Bool, valid "2001:db8::1" = true →
       _parse_ip_address .v6 valid "2001:db8::1" = .ok ⟨"2001:db8::1", 128⟩)
    ∧ _parse_ip_address .v4 ipv4AddrValid "10.0.0.0/24" = .ok ⟨"10.0.0.0", 24⟩
    ∧ (∀ (family : Family) (valid : String → Bool) (ip plenTxt : List Char) (v : Int),
       ip.contains '/' = false →
       stripChars (ip ++ '/' :: plenTxt) = ip ++ '/' :: plenTxt →
       parseIntCore (stripChars plenTxt) = some v →
       (1 ≤ v ∧ v ≤ (maxPlen family : Int) →
          valid (String.mk ip) = true →
          _parse_ip_address family valid (String.mk (ip ++ '/' :: plenTxt)) =
            .ok ⟨String.mk ip, v.toNat⟩)
       ∧ (¬(1 ≤ v ∧ v ≤ (maxPlen family : Int)) →
          _parse_ip_address family valid (String.mk (ip ++ '/' :: plenTxt)) =
            .error (.invalidPlen (String.mk plenTxt) (maxPlen family))))
    ∧ (∀ (p : String) (m : Nat) (a : String),
       IpAddrErr.invalidPlen p m ≠ IpAddrErr.invalidAddress a) := by
  refine ⟨ip_parse_no_slash, by rfl, ?_, by rfl, ip_parse_with_slash, ?_⟩
  · intro valid hv
    exact ip_parse_no_slash .v6 valid "2001:db8::1" (by decide) hv
  · intro p m a h
    exact IpAddrErr.noConfusion h

/-- Witness for C9 at concrete inputs. -/
theorem C9_ip_address_parsing_witness :
    _parse_ip_address .v6 allValid " 2001:db8::1 " = .ok ⟨"2001:db8::1", 128⟩
    ∧ _parse_ip_address .v4 ipv4AddrValid "10.0.0.0/0" =
        .error (.invalidPlen "0" 32) := by
  constructor
  · exact C9_ip_address_parsing.1 .v6 allValid " 2001:db8::1 " (by decide) (by decide)
  · exact (C9_ip_address_parsing.2.2.2.2.1 .v4 ipv4AddrValid
      "10.0.0.0".data "0".data 0 (by decide) (by decide) (by decide)).2 (by decide)

/-! ## IP route parsing (`_parse_ip_route`) -/

/-- Claim C5: route tokens after the destination are classified in order as
next-hop (valid address of the family), metric (non-negative integer), then
`key=value` attributes; a next-hop or metric after an attribute — or a
next-hop after a metric — is a parse error.  Examples:
`"192.168.2.0/24 192.168.2.1 3"` parses to dest 192.168.2.0/24 with next-hop
192.168.2.1 and metric 3; `"10.1.2.0/24"` leaves metric at −1 and next-hop
unset; `"192.168.2.0/24 3 192.168.2.1"` is rejected. -/
theorem C5_route_token_order :
    (∀ attrValid : String → Bool,
       _parse_ip_route .v4 ipv4AddrValid attrValid "192.168.2.0/24 192.168.2.1 3" =
         .ok ⟨"192.168.2.0", 24, some "192.168.2.1", 3, []⟩)
    ∧ (∀ attrValid : String → Bool,
       _parse_ip_route .v4 ipv4AddrValid attrValid "10.1.2.0/24" =
         .ok ⟨"10.1.2.0", 24, none, -1, []⟩)
    ∧ (∀ attrValid : String → Bool,
       _parse_ip_route .v4 ipv4AddrValid attrValid "192.168.2.0/24 3 192.168.2.1" =
         .error (.nextHopMustBeFirst "192.168.2.1"))
    ∧ (∀ (addrValid attrValid : String → Bool) (st : RouteScan) (tok : String),
       addrValid tok = true →
       st.metric ≠ -1 ∨ st.attrs ≠ [] →
       routeTokenStep addrValid attrValid st tok = .error (.nextHopMustBeFirst tok))
    ∧ (∀ (addrValid attrValid : String → Bool) (st : RouteScan) (tok : String),
       addrValid tok = false →
       asciiStrToInt64 tok 0 4294967295 (-1) ≠ -1 →
       st.attrs ≠ [] →
       routeTokenStep addrValid attrValid st tok = .error (.metricMustBeBeforeAttrs tok))
    ∧ (∀ (addrValid attrValid : String → Bool) (st : RouteScan) (tok : String),
       addrValid tok = false →
       asciiStrToInt64 tok 0 4294967295 (-1) = -1 →
       tok.data.contains '=' = true →
       attrValid tok = true →
       routeTokenStep addrValid attrValid st tok = .ok { st with attrs := st.attrs ++ [tok] }) := by
  refine ⟨fun _ => rfl, fun _ => rfl, fun _ => rfl, ?_, ?_, ?_⟩
  · intro addrValid attrValid st tok hv hpos
    unfold routeTokenStep
    rw [if_pos hv, if_pos]
    rcases hpos with h | h
    · simp [bne_iff_ne, h]
    · simp [h, List.isEmpty_iff]
  · intro addrValid attrValid st tok hv hint hattrs
    unfold routeTokenStep
    rw [if_neg (by simp [hv]), if_pos (by simp [bne_iff_ne, hint]), if_pos]
    simp [List.isEmpty_iff, hattrs]
  · intro addrValid attrValid st tok hv hint heq hattr
    unfold routeTokenStep
    rw [if_neg (by simp [hv]), if_neg (by simp [bne_iff_ne, hint]), if_pos heq, if_pos hattr]

/-- Witness for C5 at concrete inputs. -/
theorem C5_route_token_order_witness :
    _parse_ip_route .v4 ipv4AddrValid allValid "192.168.2.0/24 192.168.2.1 3" =
      .ok ⟨"192.168.2.0", 24, some "192.168.2.1", 3, []⟩
    ∧ routeTokenStep ipv4AddrValid allValid ⟨none, 3, []⟩ "192.168.2.1" =
      .error (.nextHopMustBeFirst "192.168.2.1")
    ∧ routeTokenStep ipv4AddrValid allValid ⟨none, -1, ["src=1.2.3.4"]⟩ "7" =
      .error (.metricMustBeBeforeAttrs "7")
    ∧ routeTokenStep ipv4AddrValid allValid routeScan0 "src=1.2.3.4" =
      .ok { routeScan0 with attrs := ["src=1.2.3.4"] } :=
  ⟨C5_route_token_order.1 allValid,
   C5_route_token_order.2.2.2.1 ipv4AddrValid allValid ⟨none, 3, []⟩ "192.168.2.1"
     (by decide) (Or.inl (by decide)),
   C5_route_token_order.2.2.2.2.1 ipv4AddrValid allValid ⟨none, -1, ["src=1.2.3.4"]⟩ "7"
     (by decide) (by decide) (by decide),
   C5_route_token_order.2.2.2.2.2 ipv4AddrValid allValid routeScan0 "src=1.2.3.4"
     (by decide) (by decide) (by decide) (by decide)⟩

/-! ## Multi-value list policy (`_set_fcn_multilist`, `_remove_fcn_multilist`,
`_set_fcn_ip4_config_addresses`) -/

theorem nmc_string_is_valid_mem {allowed : List String} {input : String}
    (h : allowed.contains input = true) :
    nmc_string_is_valid allowed input = some input := by
  unfold nmc_string_is_valid
  rw [if_pos h]

theorem nmc_string_is_valid_not_mem {allowed : List String} {input : String}
    (h : allowed.contains input = false) :
    nmc_string_is_valid allowed input = none := by
  unfold nmc_string_is_valid
  rw [if_neg (by simpa using h)]

theorem multilist_items_stop_at_first_invalid (allowed : List String) :
    ∀ (pre st : List String) (bad : String) (post : List String),
    (∀ x ∈ pre, allowed.contains x = true) →
    allowed.contains bad = false →
    _set_fcn_multilist_items (some allowed) st (pre ++ bad :: post) =
      ⟨false, st ++ pre, some bad⟩ := by
  intro pre
  induction pre with
  | nil =>
    intro st bad post _ hbad
    simp only [List.nil_append, _set_fcn_multilist_items, nmc_string_is_valid_not_mem hbad]
    simp
  | cons x xs ih =>
    intro st bad post hpre hbad
    have hx : allowed.contains x = true := hpre x (by simp)
    simp only [List.cons_append, _set_fcn_multilist_items, nmc_string_is_valid_mem hx,
      List.append_eq]
    rw [ih (st ++ [x]) bad post (fun y hy => hpre y (by simp [hy])) hbad]
    simp

theorem addresses_items_stop_at_first_invalid :
    ∀ (pre : List String) (st : List NMIPAddress) (bad : String) (post : List String)
      (e : IpAddrErr),
    (∀ x ∈ pre, (_parse_ip_address .v4 ipv4AddrValid x).isOk = true) →
    _parse_ip_address .v4 ipv4AddrValid bad = .error e →
    _set_fcn_ip4_config_addresses_items st (pre ++ bad :: post) =
      ⟨false,
       st ++ pre.filterMap (fun x => (_parse_ip_address .v4 ipv4AddrValid x).toOption),
       some e⟩ := by
  intro pre
  induction pre with
  | nil =>
    intro st bad post e _ hbad
    simp [_set_fcn_ip4_config_addresses_items, hbad]
  | cons x xs ih =>
    intro st bad post e hpre hbad
    obtain ⟨a, ha⟩ : ∃ a, _parse_ip_address .v4 ipv4AddrValid x = .ok a := by
      have hx := hpre x (by simp)
      cases h : _parse_ip_address .v4 ipv4AddrValid x with
      | ok a => exact ⟨a, rfl⟩
      | error e2 => rw [h] at hx; simp [Except.isOk, Except.toBool] at hx
    simp only [List.cons_append, _set_fcn_ip4_config_addresses_items, ha, List.append_eq]
    rw [ih (st ++ [a]) bad post e (fun y hy => hpre y (by simp [hy])) hbad]
    simp [List.filterMap_cons, ha, Except.toOption]

/-- Claim C1 (counterexample): a multi-item set that fails on a later item
does NOT leave the configuration unchanged — the valid items before the
first invalid one have already been applied.  On an empty list,
`set "a z"` with value set `{a, b}` fails on `"z"` but leaves `["a"]` behind,
while the claim (all-or-nothing, `set_fcn_multilist_as_claimed`) demands the
empty list. -/
theorem C1_counterexample_partial_application :
    _set_fcn_multilist (some ["a", "b"]) [] (some "a z") = ⟨false, ["a"], some "z"⟩
    ∧ set_fcn_multilist_as_claimed (some ["a", "b"]) [] (some "a z") =
        ⟨false, [], some "z"⟩
    ∧ _set_fcn_multilist (some ["a", "b"]) [] (some "a z") ≠
        set_fcn_multilist_as_claimed (some ["a", "b"]) [] (some "a z")
    ∧ _set_fcn_ip4_config_addresses [] (some "10.0.0.1/24,badaddr") =
        ⟨false, [⟨"10.0.0.1", 24⟩], some (.invalidAddress "badaddr")⟩ := by
  refine ⟨by rfl, by rfl, by decide, by rfl⟩

/-- Claim C1 (amended): a multi-item set stops at the first invalid item in
left-to-right token order and returns that item's error, applying none of
the later items — but the valid items preceding the first invalid one have
already been applied to the configuration object. -/
theorem C1_first_error_prefix_applied :
    (∀ (allowed pre st : List String) (bad : String) (post : List String),
       (∀ x ∈ pre, allowed.contains x = true) →
       allowed.contains bad = false →
       _set_fcn_multilist_items (some allowed) st (pre ++ bad :: post) =
         ⟨false, st ++ pre, some bad⟩)
    ∧ (∀ (pre : List String) (st : List NMIPAddress) (bad : String)
         (post : List String) (e : IpAddrErr),
       (∀ x ∈ pre, (_parse_ip_address .v4 ipv4AddrValid x).isOk = true) →
       _parse_ip_address .v4 ipv4AddrValid bad = .error e →
       _set_fcn_ip4_config_addresses_items st (pre ++ bad :: post) =
         ⟨false,
          st ++ pre.filterMap (fun x => (_parse_ip_address .v4 ipv4AddrValid x).toOption),
          some e⟩) :=
  ⟨multilist_items_stop_at_first_invalid, addresses_items_stop_at_first_invalid⟩

/-- Witness for the amended C1 at concrete inputs. -/
theorem C1_first_error_prefix_applied_witness :
    _set_fcn_multilist_items (some ["a", "b"]) [] (["a"] ++ "z" :: ["b"]) =
      ⟨false, ["a"], some "z"⟩
    ∧ _set_fcn_ip4_config_addresses_items [] (["10.0.0.1/24"] ++ "badaddr" :: []) =
      ⟨false, [⟨"10.0.0.1", 24⟩], some (.invalidAddress "badaddr")⟩ :=
  ⟨C1_first_error_prefix_applied.1 ["a", "b"] ["a"] [] "z" ["b"]
     (by decide) (by decide),
   C1_first_error_prefix_applied.2 ["10.0.0.1/24"] [] "badaddr" []
     (.invalidAddress "badaddr") (by decide) (by rfl)⟩

/-- Claim C4 (counterexample): text that parses as a non-negative integer
not below the element count is a successful no-op on the real code, while
the claim's reading ("any other text" falls back to remove-by-value) would
remove the equal element.  On `["5", "a"]`, `remove "5"` leaves the list
unchanged; the claim's semantics (`remove_fcn_multilist_as_claimed`) yield
`["a"]`. -/
theorem C4_counterexample_integer_no_value_fallback :
    _remove_fcn_multilist none ["5", "a"] "5" = ⟨true, ["5", "a"], none⟩
    ∧ remove_fcn_multilist_as_claimed none ["5", "a"] "5" = ⟨true, ["a"], none⟩
    ∧ _remove_fcn_multilist none ["5", "a"] "5" ≠
        remove_fcn_multilist_as_claimed none ["5", "a"] "5" := by
  refine ⟨by rfl, by rfl, by decide⟩

/-- Claim C4 (amended): text parsing as a non-negative integer is always
treated as an index — below the element count it removes that element,
otherwise the call is a successful no-op; only text that does not parse as
an integer is stripped, optionally re-validated, and removed by
value-equality, with zero matches still reported as success.  On
`["a","b","c"]`, `remove "1"` yields `["a","c"]` and `remove "z"` succeeds
leaving the list unchanged. -/
theorem C4_remove_index_or_value :
    (∀ (values_static : Option (List String)) (st : List String) (value : String)
       (i : Int),
       asciiStrToInt64 value 0 9223372036854775807 (-1) = i →
       i ≠ -1 →
       (i < (st.length : Int) →
          _remove_fcn_multilist values_static st value = ⟨true, st.eraseIdx i.toNat, none⟩)
       ∧ ((st.length : Int) ≤ i →
          _remove_fcn_multilist values_static st value = ⟨true, st, none⟩))
    ∧ (∀ (st : List String) (value : String),
       asciiStrToInt64 value 0 9223372036854775807 (-1) = -1 →
       _remove_fcn_multilist none st value = ⟨true, st.erase (gStrstrip value), none⟩)
    ∧ (∀ (allowed st : List String) (value : String),
       asciiStrToInt64 value 0 9223372036854775807 (-1) = -1 →
       (allowed.contains (gStrstrip value) = true →
          _remove_fcn_multilist (some allowed) st value =
            ⟨true, st.erase (gStrstrip value), none⟩)
       ∧ (allowed.contains (gStrstrip value) = false →
          _remove_fcn_multilist (some allowed) st value =
            ⟨false, st, some (gStrstrip value)⟩))
    ∧ _remove_fcn_multilist none ["a", "b", "c"] "1" = ⟨true, ["a", "c"], none⟩
    ∧ _remove_fcn_multilist none ["a", "b", "c"] "z" =
        ⟨true, ["a", "b", "c"], none⟩ := by
  refine ⟨?_, ?_, ?_, by rfl, by rfl⟩
  · intro values_static st value i h hne
    constructor
    · intro hlt
      unfold _remove_fcn_multilist
      simp only [h]
      rw [if_pos (by simp [bne_iff_ne, hne]), if_pos (by simpa using hlt)]
    · intro hge
      unfold _remove_fcn_multilist
      simp only [h]
      rw [if_pos (by simp [bne_iff_ne, hne]), if_neg (by simp; omega)]
  · intro st value h
    unfold _remove_fcn_multilist
    simp only [h]
    rw [if_neg (by simp)]
  · intro allowed st value h
    constructor
    · intro hmem
      unfold _remove_fcn_multilist
      simp only [h]
      rw [if_neg (by simp)]
      simp [nmc_string_is_valid_mem hmem]
    · intro hmem
      unfold _remove_fcn_multilist
      simp only [h]
      rw [if_neg (by simp)]
      simp [nmc_string_is_valid_not_mem hmem]

/-- Witness for the amended C4 at concrete inputs. -/
theorem C4_remove_index_or_value_witness :
    (_remove_fcn_multilist none ["a", "b", "c"] "7" = ⟨true, ["a", "b", "c"], none⟩)
    ∧ (_remove_fcn_multilist (some ["x", "y"]) ["x"] " z " = ⟨false, ["x"], some "z"⟩) :=
  ⟨((C4_remove_index_or_value.1 none ["a", "b", "c"] "7" 7 (by rfl) (by decide)).2
      (by decide)),
   ((C4_remove_index_or_value.2.2.1 ["x", "y"] ["x"] " z " (by rfl)).2 (by decide))⟩

/-! ## DCB 8-slot arrays (`dcb_parse_uint_array`, `_set_fcn_dcb`) -/

theorem dcbPercentSum_spec :
    ∀ (nums : List Nat) (acc : Nat),
    dcbPercentSum nums acc = acc + nums.sum
    ∨ (100 < dcbPercentSum nums acc ∧ dcbPercentSum nums acc ≤ acc + nums.sum) := by
  intro nums
  induction nums with
  | nil =>
    intro acc
    left
    simp [dcbPercentSum]
  | cons n rest ih =>
    intro acc
    unfold dcbPercentSum
    by_cases h : n > 100 || acc + n > 100
    · rw [if_pos h]
      right
      simp only [Bool.or_eq_true, decide_eq_true_eq] at h
      constructor
      · omega
      · simp only [List.sum_cons]
        omega
    · rw [if_neg h]
      rcases ih (acc + n) with h2 | h2
      · left
        rw [h2]
        simp only [List.sum_cons]
        omega
      · right
        simp only [List.sum_cons]
        omega

theorem dcbPercentSum_eq_100_iff (nums : List Nat) :
    dcbPercentSum nums 0 = 100 ↔ nums.sum = 100 := by
  rcases dcbPercentSum_spec nums 0 with h | h
  · rw [h]
    omega
  · omega

theorem asciiStrToInt64_eq (s : String) (mn mx fallback w : Int)
    (hp : parseIntCore (stripChars s.data) = some w) :
    asciiStrToInt64 s mn mx fallback = if mn ≤ w ∧ w ≤ mx then w else fallback := by
  simp only [asciiStrToInt64, hp]
  by_cases h : mn ≤ w ∧ w ≤ mx
  · rw [if_pos h, if_neg]
    simp only [Bool.or_eq_true, decide_eq_true_eq]
    omega
  · rw [if_neg h, if_pos]
    simp only [Bool.or_eq_true, decide_eq_true_eq]
    omega

theorem dcbParseElem_range (mx oth : Nat) (tok : String) (w : Int)
    (hp : parseIntCore (stripChars (gStrstrip tok).data) = some w)
    (hconf : oth = 0 ∨ mx ≤ oth) :
    (0 ≤ w ∧ (w ≤ (mx : Int) ∨ (oth ≠ 0 ∧ w = (oth : Int))) →
       dcbParseElem mx oth tok = .ok w.toNat)
    ∧ (¬(0 ≤ w ∧ (w ≤ (mx : Int) ∨ (oth ≠ 0 ∧ w = (oth : Int)))) →
       dcbParseElem mx oth tok = .error (.elemOutOfRange (gStrstrip tok))) := by
  simp only [dcbParseElem]
  rw [asciiStrToInt64_eq _ _ _ _ w hp]
  constructor
  · intro hyp
    obtain ⟨h0, hcase⟩ := hyp
    have hhi : 0 ≤ w ∧ w ≤ (if oth != 0 then (oth : Int) else (mx : Int)) := by
      refine ⟨h0, ?_⟩
      by_cases hb : oth = 0
      · rw [if_neg (by simp [hb])]
        rcases hcase with h1 | h1
        · exact h1
        · exact absurd hb h1.1
      · rw [if_pos (bne_iff_ne.mpr hb)]
        have hmo : mx ≤ oth := by
          rcases hconf with h | h
          · exact absurd h hb
          · exact h
        rcases hcase with h1 | h1 <;> omega
    rw [if_pos hhi, if_neg]
    simp only [Bool.or_eq_true, Bool.and_eq_true, beq_iff_eq, bne_iff_ne,
      decide_eq_true_eq]
    rcases hconf with hc | hc <;> rcases hcase with h1 | h1 <;> omega
  · intro hyp
    by_cases hhi : 0 ≤ w ∧ w ≤ (if oth != 0 then (oth : Int) else (mx : Int))
    · rw [if_pos hhi, if_pos]
      simp only [Bool.or_eq_true, Bool.and_eq_true, beq_iff_eq, bne_iff_ne,
        decide_eq_true_eq]
      by_cases hb : oth = 0
      · rw [if_neg (by simp [hb])] at hhi
        subst hb
        omega
      · rw [if_pos (bne_iff_ne.mpr hb)] at hhi
        have hmo : mx ≤ oth := by
          rcases hconf with h | h
          · exact absurd h hb
          · exact h
        omega
    · rw [if_neg hhi, if_pos]
      simp

/-- Claim C6: the DCB 8-slot array parser accepts exactly 8 comma-separated
values, each within `[0, max]` or equal to the permitted `other` sentinel
(stated for the registry's configurations, where `other` is 0 — absent — or
at least `max`); for percentage properties the set succeeds iff the 8 values
additionally sum to exactly 100, checked after the per-element validation.
`"10,10,10,10,10,10,10,30"` succeeds, `"10,10,10,10,10,10,10,20"` fails. -/
theorem C6_dcb_array :
    (∀ (v : String) (mx oth : Nat), (gStrsplitSet [','] v).length ≠ 8 →
       dcb_parse_uint_array v mx oth = .error .notEightNumbers)
    ∧ (∀ (mx oth : Nat) (tok : String) (w : Int),
       parseIntCore (stripChars (gStrstrip tok).data) = some w →
       (oth = 0 ∨ mx ≤ oth) →
       (0 ≤ w ∧ (w ≤ (mx : Int) ∨ (oth ≠ 0 ∧ w = (oth : Int))) →
          dcbParseElem mx oth tok = .ok w.toNat)
       ∧ (¬(0 ≤ w ∧ (w ≤ (mx : Int) ∨ (oth ≠ 0 ∧ w = (oth : Int)))) →
          dcbParseElem mx oth tok = .error (.elemOutOfRange (gStrstrip tok))))
    ∧ (∀ (st : List Nat) (v : String) (nums : List Nat),
       dcb_parse_uint_array v 100 0 = .ok nums →
       (_set_fcn_dcb 100 0 true st (some v) = .ok nums ↔ nums.sum = 100))
    ∧ (∀ (mx oth : Nat) (st : List Nat) (v : String) (e : DcbErr),
       dcb_parse_uint_array v mx oth = .error e →
       _set_fcn_dcb mx oth true st (some v) = .error e)
    ∧ (∀ st : List Nat,
       _set_fcn_dcb 100 0 true st (some "10,10,10,10,10,10,10,30") =
         .ok [10, 10, 10, 10, 10, 10, 10, 30])
    ∧ (∀ st : List Nat,
       _set_fcn_dcb 100 0 true st (some "10,10,10,10,10,10,10,20") =
         .error .sumNot100) := by
  refine ⟨?_, dcbParseElem_range, ?_, ?_, fun _ => rfl, fun _ => rfl⟩
  · intro v mx oth h
    simp only [dcb_parse_uint_array]
    rw [if_pos h]
  · intro st v nums hparse
    simp only [_set_fcn_dcb, hparse, Bool.true_and]
    constructor
    · intro h
      by_cases hs : dcbPercentSum nums 0 = 100
      · exact (dcbPercentSum_eq_100_iff nums).mp hs
      · rw [if_pos (by simp [bne_iff_ne, hs])] at h
        exact absurd h (by simp)
    · intro h
      rw [if_neg]
      simp [bne_iff_ne, (dcbPercentSum_eq_100_iff nums).mpr h]
  · intro mx oth st v e hparse
    simp only [_set_fcn_dcb, hparse]

/-- Witness for C6 at concrete inputs (including the priority-group-id
configuration `max = 7`, `other = 15` and the percentage configuration
`max = 100`, `other` absent). -/
theorem C6_dcb_array_witness :
    dcb_parse_uint_array "1,2,3" 100 0 = .error .notEightNumbers
    ∧ dcbParseElem 7 15 "15" = .ok 15
    ∧ dcbParseElem 7 15 "9" = .error (.elemOutOfRange "9")
    ∧ _set_fcn_dcb 100 0 true [] (some "10,10,10,10,10,10,10,30") =
        .ok [10, 10, 10, 10, 10, 10, 10, 30]
    ∧ _set_fcn_dcb 7 15 true [] (some "1,2,3") = .error .notEightNumbers :=
  ⟨C6_dcb_array.1 "1,2,3" 100 0 (by decide),
   (C6_dcb_array.2.1 7 15 "15" 15 (by rfl) (by decide)).1 (by decide),
   (C6_dcb_array.2.1 7 15 "9" 9 (by rfl) (by decide)).2 (by decide),
   (C6_dcb_array.2.2.1 [] "10,10,10,10,10,10,10,30"
      [10, 10, 10, 10, 10, 10, 10, 30] (by rfl)).mpr (by decide),
   C6_dcb_array.2.2.2.1 7 15 [] "1,2,3" .notEightNumbers (by rfl)⟩

/-! ## Scalar string setter, the connection-type property, and reset
semantics (`_set_fcn_gobject_string`, `_set_fcn_connection_type`) -/

/-- Claim C2 (counterexample): the NULL/reset path is NOT checked before
every other check: `_set_fcn_connection_type` tests the UUID first, so a
reset of `connection.type` on a connection that already has a UUID fails
with the immutability error instead of resetting, leaving a non-default
value in place. -/
theorem C2_counterexample_reset_not_first :
    _set_fcn_connection_type "3ca9f2c1" ⟨some "f81d4fae", some "802-3-ethernet"⟩ none =
      .error "Can not change the connection type"
    ∧ connection_type_is_default ⟨some "f81d4fae", some "802-3-ethernet"⟩ = false := by
  refine ⟨by rfl, by rfl⟩

/-- Claim C2 (amended): for the modelled contract kinds other than
connection.type, set-with-NULL is handled before any other check and resets
the property to its compile-time default, after which `is_default` holds;
for connection.type the immutability (UUID) check precedes the reset path,
so NULL resets the type only while no UUID exists and fails with the
immutability error once one does. -/
theorem C2_reset_default_first_except_connection_type :
    (∀ (values_static : Option (List String)) (st : List String),
       _set_fcn_multilist values_static st none = ⟨true, [], none⟩
       ∧ multilist_is_default [] = true)
    ∧ (∀ st : List NMIPAddress,
       _set_fcn_ip4_config_addresses st none = ⟨true, [], none⟩)
    ∧ (∀ (values_static : Option (List String)) (dflt : Option String),
       _set_fcn_gobject_string values_static dflt none = .ok dflt
       ∧ gobject_string_is_default dflt dflt = true)
    ∧ (∀ (mx oth : Nat) (is_percent : Bool) (st : List Nat),
       _set_fcn_dcb mx oth is_percent st none = .ok (List.replicate 8 0))
    ∧ (∀ (gen_uuid : String) (s : NMSettingConnection),
       s.uuid = none →
       _set_fcn_connection_type gen_uuid s none = .ok { s with ctype := none }
       ∧ connection_type_is_default { s with ctype := none } = true)
    ∧ (∀ (gen_uuid : String) (s : NMSettingConnection) (value : Option String),
       s.uuid.isSome →
       _set_fcn_connection_type gen_uuid s value =
         .error "Can not change the connection type") := by
  refine ⟨fun _ _ => ⟨rfl, rfl⟩, fun _ => rfl, ?_, fun _ _ _ _ => rfl, ?_, ?_⟩
  · intro values_static dflt
    refine ⟨rfl, ?_⟩
    simp [gobject_string_is_default]
  · intro gen_uuid s h
    unfold _set_fcn_connection_type
    rw [if_neg (by simp [h])]
    exact ⟨rfl, rfl⟩
  · intro gen_uuid s value h
    unfold _set_fcn_connection_type
    rw [if_pos h]

/-- Witness for the amended C2 at concrete inputs. -/
theorem C2_reset_default_first_except_connection_type_witness :
    (_set_fcn_connection_type "3ca9f2c1" ⟨none, some "bond"⟩ none =
       .ok ⟨none, none⟩
     ∧ connection_type_is_default ⟨none, none⟩ = true)
    ∧ _set_fcn_connection_type "3ca9f2c1" ⟨some "f81d4fae", none⟩ (some "bond") =
       .error "Can not change the connection type" :=
  ⟨C2_reset_default_first_except_connection_type.2.2.2.2.1 "3ca9f2c1"
     ⟨none, some "bond"⟩ rfl,
   C2_reset_default_first_except_connection_type.2.2.2.2.2 "3ca9f2c1"
     ⟨some "f81d4fae", none⟩ (some "bond") (by decide)⟩

/-- Claim C8: setting connection.type fails with the dedicated immutability
error whenever a UUID already exists — regardless of the supplied text, even
the reset sentinel — and a successful type set on a fresh connection stores
the freshly generated identifier as a side effect. -/
theorem C8_connection_type_immutable_and_uuid_side_effect :
    (∀ (gen_uuid : String) (s : NMSettingConnection) (value : Option String),
       s.uuid.isSome →
       _set_fcn_connection_type gen_uuid s value =
         .error "Can not change the connection type")
    ∧ (∀ (gen_uuid : String) (s : NMSettingConnection) (v : String),
       s.uuid = none →
       _set_fcn_connection_type gen_uuid s (some v) =
         .ok { s with uuid := some gen_uuid, ctype := some v }) := by
  constructor
  · intro gen_uuid s value h
    unfold _set_fcn_connection_type
    rw [if_pos h]
  · intro gen_uuid s v h
    unfold _set_fcn_connection_type
    rw [if_neg (by simp [h])]

/-- Witness for C8 at concrete inputs. -/
theorem C8_connection_type_witness :
    _set_fcn_connection_type "3ca9f2c1" ⟨some "f81d4fae", some "vlan"⟩ (some "bond") =
      .error "Can not change the connection type"
    ∧ _set_fcn_connection_type "3ca9f2c1" ⟨none, none⟩ (some "bond") =
      .ok ⟨some "3ca9f2c1", some "bond"⟩ :=
  ⟨C8_connection_type_immutable_and_uuid_side_effect.1 "3ca9f2c1"
     ⟨some "f81d4fae", some "vlan"⟩ (some "bond") (by decide),
   C8_connection_type_immutable_and_uuid_side_effect.2 "3ca9f2c1"
     ⟨none, none⟩ "bond" rfl⟩

/-! ## Property get dispatch and secret redaction
(`_meta_type_property_info_get_fcn`, `_get_text_hidden`) -/

/-- Claim C3: on any `is_secret` property read without the reveal-secrets
capability, get returns the fixed redaction token, reports `is_default` as
true, and its output is identical for any two stored values (the text never
depends on the underlying value). -/
theorem C3_secret_redaction :
    ∀ (σ : Type) (info : PropertyInfo σ) (st1 st2 : σ) (get_type : GetType),
    info.is_secret = true →
    _meta_type_property_info_get_fcn info st1 get_type false =
      _meta_type_property_info_get_fcn info st2 get_type false
    ∧ (_meta_type_property_info_get_fcn info st1 get_type false).1 =
        NM_META_TEXT_HIDDEN
    ∧ (_meta_type_property_info_get_fcn info st1 get_type false).2 = true := by
  intro σ info st1 st2 get_type h
  unfold _meta_type_property_info_get_fcn
  rw [if_pos (by simp [h]), if_pos (by simp [h])]
  exact ⟨rfl, rfl, rfl⟩

/-- Witness for C3: the redacted read of a populated secret and of an
absent/empty one coincide. -/
theorem C3_secret_redaction_witness :
    _meta_type_property_info_get_fcn secretDemoInfo (some "psk-value") .parsable false =
      _meta_type_property_info_get_fcn secretDemoInfo none .parsable false
    ∧ (_meta_type_property_info_get_fcn secretDemoInfo (some "psk-value") .parsable
        false).1 = NM_META_TEXT_HIDDEN
    ∧ (_meta_type_property_info_get_fcn secretDemoInfo (some "psk-value") .parsable
        false).2 = true :=
  C3_secret_redaction (Option String) secretDemoInfo (some "psk-value") none .parsable rfl

/-! ## Enum / flags rendering (`_get_fcn_gobject_enum`, default policy) -/

/-- Claim C7 (counterexample): under the default policy a flags property
(not an enum class) renders its numeric part through the hex branch, so a
stored flags value of 0 is formatted `"0x0"` in Parsable mode — not `"0"` —
and `"0x0 (none)"` in Pretty mode — not `"0 (none)"`. -/
theorem C7_counterexample_flags_zero_renders_hex :
    _get_fcn_gobject_enum_default false noneNick .parsable 0 = "0x0"
    ∧ _get_fcn_gobject_enum_default false noneNick .parsable 0 ≠ "0"
    ∧ _get_fcn_gobject_enum_default false noneNick .pretty 0 = "0x0 (none)"
    ∧ _get_fcn_gobject_enum_default false noneNick .pretty 0 ≠ "0 (none)" := by
  refine ⟨by rfl, by decide, by rfl, by decide⟩

/-- Claim C7 (amended): for a flags enumeration property under the default
rendering policy, a stored flags value of 0 is formatted as `"0x0"` in
Parsable mode, and as `"0x0 (none)"` in Pretty mode whenever the flag
enumeration names the zero value "none". -/
theorem C7_flags_zero_default_rendering :
    (∀ enumToStr : Int → String,
       _get_fcn_gobject_enum_default false enumToStr .parsable 0 = "0x0")
    ∧ (∀ enumToStr : Int → String, enumToStr 0 = "none" →
       _get_fcn_gobject_enum_default false enumToStr .pretty 0 = "0x0 (none)") := by
  constructor
  · intro enumToStr
    rfl
  · intro enumToStr h
    simp only [_get_fcn_gobject_enum_default, h]
    rfl

/-- Witness for the amended C7 at a concrete flag enumeration. -/
theorem C7_flags_zero_default_rendering_witness :
    _get_fcn_gobject_enum_default false noneNick .parsable 0 = "0x0"
    ∧ _get_fcn_gobject_enum_default false noneNick .pretty 0 = "0x0 (none)" :=
  ⟨C7_flags_zero_default_rendering.1 noneNick,
   C7_flags_zero_default_rendering.2 noneNick rfl⟩

/-! ## Team link-watcher parsing (`_parse_team_link_watcher`) -/

theorem splitAnyCore_all_no_delim (delims : List Char) :
    ∀ (l acc : List Char), (∀ c ∈ l, delims.contains c = false) →
    splitAnyCore delims l acc = [acc.reverse ++ l] := by
  intro l
  induction l with
  | nil =>
    intro acc _
    simp [splitAnyCore]
  | cons c cs ih =>
    intro acc h
    unfold splitAnyCore
    rw [if_neg (by simpa using h c (by simp))]
    rw [ih (c :: acc) (fun x hx => h x (by simp [hx]))]
    simp

theorem splitAnyCore_first_delim (delims : List Char) (d : Char)
    (hd : delims.contains d = true) :
    ∀ (l acc r : List Char), (∀ c ∈ l, delims.contains c = false) →
    splitAnyCore delims (l ++ d :: r) acc =
      (acc.reverse ++ l) :: splitAnyCore delims r [] := by
  intro l
  induction l with
  | nil =>
    intro acc r _
    simp only [List.nil_append, splitAnyCore]
    rw [if_pos hd]
    simp
  | cons c cs ih =>
    intro acc r h
    simp only [List.cons_append, splitAnyCore, List.append_eq]
    rw [if_neg (by simpa using h c (by simp)),
      ih (c :: acc) r (fun x hx => h x (by simp [hx]))]
    simp

theorem nmStrsplitSet_pair (k v : List Char)
    (hk1 : k ≠ []) (hv1 : v ≠ [])
    (hk2 : (∀ c ∈ k, (['='] : List Char).contains c = false))
    (hv2 : (∀ c ∈ v, (['='] : List Char).contains c = false)) :
    nmStrsplitSet ['='] (String.mk (k ++ '=' :: v)) = [String.mk k, String.mk v] := by
  unfold nmStrsplitSet
  rw [string_mk_data, splitAnyCore_first_delim ['='] '=' (by decide) k [] v hk2,
    splitAnyCore_all_no_delim ['='] v [] hv2]
  simp [List.filterMap, hk1, hv1]

theorem teamWatcher_flag_pair (keyTxt : String) (acc : WatcherAcc) (v : String)
    (hne : v.data ≠ []) (hnoeq : (∀ c ∈ v.data, (['='] : List Char).contains c = false))
    (hkne : keyTxt.data ≠ [])
    (hknoeq : (∀ c ∈ keyTxt.data, (['='] : List Char).contains c = false))
    (hdata : (keyTxt ++ "=" ++ v).data = keyTxt.data ++ '=' :: v.data) :
    teamWatcherPairStep acc (keyTxt ++ "=" ++ v) =
      teamWatcherKeyValue (keyTxt ++ "=" ++ v) acc keyTxt v := by
  have hsplit : nmStrsplitSet ['='] (keyTxt ++ "=" ++ v) = [keyTxt, v] := by
    have h2 := nmStrsplitSet_pair keyTxt.data v.data hkne hne hknoeq hnoeq
    unfold nmStrsplitSet at h2 ⊢
    rw [hdata]
    rw [string_mk_data] at h2
    exact h2
  unfold teamWatcherPairStep
  rw [hsplit]

theorem teamWatcherPostCheck_ok (tok : String) (a : WatcherAcc)
    (h1 : 0 ≤ a.val1) (h2 : 0 ≤ a.val2) (h3 : 0 ≤ a.val3) (h4 : -1 ≤ a.val4) :
    teamWatcherPostCheck tok a = .ok a := by
  unfold teamWatcherPostCheck
  have hc1 : ¬((a.val1 < 0 || a.val2 < 0 || a.val3 < 0) = true) := by
    simp only [Bool.or_eq_true, decide_eq_true_eq]
    omega
  have hc2 : ¬(a.val4 < -1) := by omega
  rw [if_neg hc1, if_neg hc2]

/-- Claim C10: in link-watcher parsing, each of the three arp_ping boolean
flag keys (`validate-active`, `validate-inactive`, `send-always`) sets its
flag iff the supplied value is exactly the string `"true"`; any other
(well-formed, `'='`-free, nonempty) value is accepted without error and
leaves the flag unset — e.g. `"TRUE"`, `"yes"`, `"false"` are accepted
silently. -/
theorem C10_arp_ping_flag_values :
    (∀ (acc : WatcherAcc) (v : String),
       v.data ≠ [] → (∀ c ∈ v.data, (['='] : List Char).contains c = false) →
       acc.validate_active = false →
       0 ≤ acc.val1 → 0 ≤ acc.val2 → 0 ≤ acc.val3 → -1 ≤ acc.val4 →
       teamWatcherPairStep acc ("validate-active" ++ "=" ++ v) =
         .ok { acc with validate_active := v == "true" })
    ∧ (∀ (acc : WatcherAcc) (v : String),
       v.data ≠ [] → (∀ c ∈ v.data, (['='] : List Char).contains c = false) →
       acc.validate_inactive = false →
       0 ≤ acc.val1 → 0 ≤ acc.val2 → 0 ≤ acc.val3 → -1 ≤ acc.val4 →
       teamWatcherPairStep acc ("validate-inactive" ++ "=" ++ v) =
         .ok { acc with validate_inactive := v == "true" })
    ∧ (∀ (acc : WatcherAcc) (v : String),
       v.data ≠ [] → (∀ c ∈ v.data, (['='] : List Char).contains c = false) →
       acc.send_always = false →
       0 ≤ acc.val1 → 0 ≤ acc.val2 → 0 ≤ acc.val3 → -1 ≤ acc.val4 →
       teamWatcherPairStep acc ("send-always" ++ "=" ++ v) =
         .ok { acc with send_always := v == "true" })
    ∧ _parse_team_link_watcher_tokens ["validate-active=true"] =
        .ok { watcherAcc0 with validate_active := true }
    ∧ _parse_team_link_watcher_tokens ["validate-active=TRUE"] = .ok watcherAcc0
    ∧ _parse_team_link_watcher_tokens ["validate-inactive=false"] = .ok watcherAcc0
    ∧ _parse_team_link_watcher_tokens ["send-always=yes"] = .ok watcherAcc0 := by
  refine ⟨?_, ?_, ?_, by rfl, by rfl, by rfl, by rfl⟩
  · intro acc v hne hnoeq hflag h1 h2 h3 h4
    rw [teamWatcher_flag_pair "validate-active" acc v hne hnoeq (by decide) (by decide)
      (by rw [string_data_append, string_data_append, List.append_assoc]; rfl)]
    unfold teamWatcherKeyValue
    rw [if_neg (by decide), if_neg (by decide), if_neg (by decide), if_neg (by decide),
      if_neg (by decide), if_neg (by decide), if_neg (by decide), if_pos (by decide)]
    by_cases hv : (v == "true") = true
    · rw [if_pos hv,
        teamWatcherPostCheck_ok ("validate-active" ++ "=" ++ v)
          { acc with validate_active := true } h1 h2 h3 h4, hv]
    · have hv2 : (v == "true") = false := by simpa using hv
      rw [if_neg (by simp [hv2]),
        teamWatcherPostCheck_ok ("validate-active" ++ "=" ++ v) acc h1 h2 h3 h4,
        hv2, ← hflag]
  · intro acc v hne hnoeq hflag h1 h2 h3 h4
    rw [teamWatcher_flag_pair "validate-inactive" acc v hne hnoeq (by decide) (by decide)
      (by rw [string_data_append, string_data_append, List.append_assoc]; rfl)]
    unfold teamWatcherKeyValue
    rw [if_neg (by decide), if_neg (by decide), if_neg (by decide), if_neg (by decide),
      if_neg (by decide), if_neg (by decide), if_neg (by decide), if_neg (by decide),
      if_pos (by decide)]
    by_cases hv : (v == "true") = true
    · rw [if_pos hv,
        teamWatcherPostCheck_ok ("validate-inactive" ++ "=" ++ v)
          { acc with validate_inactive := true } h1 h2 h3 h4, hv]
    · have hv2 : (v == "true") = false := by simpa using hv
      rw [if_neg (by simp [hv2]),
        teamWatcherPostCheck_ok ("validate-inactive" ++ "=" ++ v) acc h1 h2 h3 h4,
        hv2, ← hflag]
  · intro acc v hne hnoeq hflag h1 h2 h3 h4
    rw [teamWatcher_flag_pair "send-always" acc v hne hnoeq (by decide) (by decide)
      (by rw [string_data_append, string_data_append, List.append_assoc]; rfl)]
    unfold teamWatcherKeyValue
    rw [if_neg (by decide), if_neg (by decide), if_neg (by decide), if_neg (by decide),
      if_neg (by decide), if_neg (by decide), if_neg (by decide), if_neg (by decide),
      if_neg (by decide), if_pos (by decide)]
    by_cases hv : (v == "true") = true
    · rw [if_pos hv,
        teamWatcherPostCheck_ok ("send-always" ++ "=" ++ v)
          { acc with send_always := true } h1 h2 h3 h4, hv]
    · have hv2 : (v == "true") = false := by simpa using hv
      rw [if_neg (by simp [hv2]),
        teamWatcherPostCheck_ok ("send-always" ++ "=" ++ v) acc h1 h2 h3 h4,
        hv2, ← hflag]

/-- Witness for C10 at concrete inputs. -/
theorem C10_arp_ping_flag_values_witness :
    teamWatcherPairStep watcherAcc0 ("validate-active" ++ "=" ++ "yes") =
      .ok { watcherAcc0 with validate_active := ("yes" : String) == "true" }
    ∧ teamWatcherPairStep watcherAcc0 ("send-always" ++ "=" ++ "true") =
      .ok { watcherAcc0 with send_always := ("true" : String) == "true" } :=
  ⟨C10_arp_ping_flag_values.1 watcherAcc0 "yes" (by decide) (by decide) rfl
     (by decide) (by decide) (by decide) (by decide),
   C10_arp_ping_flag_values.2.2.1 watcherAcc0 "true" (by decide) (by decide) rfl
     (by decide) (by decide) (by decide) (by decide)⟩

end NMMetaSettingDesc
